import Mathlib

/-!
Verification development for the LCATS repository (shallow embedding).

The Python modules embedded here:
- lcats/gatherers/downloaders.py : load_page, DataGatherer (ensure, download, clear)
- lcats/utils.py : sm, extract_fenced_code_blocks, extract_json
- lcats/cli.py and lcats/gatherers/main.py : command dispatch

Machine integers do not occur; Python ints are modelled as Int (Nat where
the source guarantees non-negativity). Fallible code returns Except or an
explicit outcome type. The external libraries (requests, json, os, shutil)
are modelled at their call boundary: an HTTP response or transport failure
is an input, the JSON parser is a parameter, and the filesystem is an
explicit state (lists of directory paths and of file paths with contents).
-/

namespace LCATS

/-! ### lcats/gatherers/downloaders.py : load_page

Python source (lines 11-19):
  def load_page(url, timeout=10):
      response = requests.get(url, timeout=timeout)
      if response.status_code == 200:
          ...
          return response.text
      else:
          ...
          return None

requests.get is external: its outcome (a response object, or a raised
transport exception such as requests.exceptions.Timeout) is the input of
the model. load_page wraps no try/except, so a transport exception
propagates out of it unchanged.
-/

/-- A requests response, as load_page reads it: status code and body text. -/
structure Response where
  status_code : Nat
  text : String
deriving DecidableEq

/-- An exception raised by requests.get: a timeout or another transport error. -/
inductive TransportError where
  | timeout
  | connectionError (msg : String)
deriving DecidableEq

/-- What a call of load_page does: return a string, return None, or let an
exception propagate to the caller. -/
inductive LoadPageResult where
  | returned (body : String)
  | returnedNone
  | raised (e : TransportError)
deriving DecidableEq

/-- True exactly when the call ended in a propagating exception. -/
def LoadPageResult.isRaised : LoadPageResult → Bool
  | .raised _ => true
  | _ => false

/-- load_page, over the outcome of the requests.get call it makes. -/
def load_page (response : Except TransportError Response) : LoadPageResult :=
  match response with
  | .error e => .raised e
  | .ok r => if r.status_code = 200 then .returned r.text else .returnedNone

/-! ### lcats/utils.py : sm

Python source (lines 17-26):
  def sm(text, limit=80, spacer='...'):
      if len(text) <= limit:
          return text
      prefix = (limit - len(spacer)) // 2
      if prefix <= 0:
          raise ValueError(...)
      suffix = limit - prefix - len(spacer)
      return text[:prefix] + spacer + text[-suffix:]

limit is a Python int, so it is an Int here; // is floor division
(Int.fdiv). text[:p] for p >= 0 is the first min(p, len) characters and
text[-s:] for s >= 1 is the last min(s, len) characters, which the two
slice helpers below reproduce for the non-negative counts at which the
source reaches them. A raised ValueError is the .error case.
-/

/-- Python text[:n] for n >= 0. -/
def strTake (s : String) (n : Nat) : String :=
  (s.toList.take n).asString

/-- Python text[-n:] for n >= 1 (the last min(n, len) characters). -/
def strTakeRight (s : String) (n : Nat) : String :=
  (s.toList.drop (s.toList.length - n)).asString

/-- sm: show the two ends of text when it is longer than the limit. -/
def sm (text : String) (limit : Int) (spacer : String) : Except String String :=
  if (text.length : Int) ≤ limit then
    .ok text
  else
    let pre : Int := Int.fdiv (limit - (spacer.length : Int)) 2
    if pre ≤ 0 then
      .error ("Text limit " ++ toString limit ++
        " not long enough for prefix/suffix spacer '" ++ spacer ++ "'.")
    else
      let suf : Int := limit - pre - (spacer.length : Int)
      .ok (strTake text pre.toNat ++ spacer ++ strTakeRight text suf.toNat)

/-- True exactly when the Except value is an error. -/
def isErr {ε α : Type} : Except ε α → Bool
  | .error _ => true
  | .ok _ => false

/-! ### lcats/utils.py : extract_fenced_code_blocks

Python source (lines 29-43): re.findall of the pattern
  three backticks, (\w+)? optional language word, [^\n]* rest of the
  opening line, a newline, (.*?) lazy content (DOTALL), three backticks
over the text, returning the (language, content) capture pairs, with ''
for an absent language group.

The scanner below reproduces findall on that pattern: try a match at each
position left to right; on a match, emit the captures and continue after
the closing backticks; on failure, advance one character. At an opening
marker, the greedy (\w+)? takes the maximal word run (nothing after it can
force backtracking, since [^\n]* also matches word characters), the
mandatory newline is the first newline after it (a match attempt with no
later newline fails), and the lazy content ends at the first closing
marker after that newline (no closing marker fails the attempt). \w is
taken as alphanumeric or underscore (the source texts are ASCII).
-/

/-- Python \w on the ASCII range: letters, digits, underscore. -/
def wordChar (c : Char) : Bool :=
  c.isAlphanum || c = '_'

/-- The lazy content capture: the characters before the first closing
triple-backtick marker, and what follows that marker; none when the
marker never occurs. -/
def findClose : List Char → Option (List Char × List Char)
  | [] => none
  | c :: cs =>
    if ('`' :: '`' :: '`' :: []).isPrefixOf (c :: cs) then
      some ([], (c :: cs).drop 3)
    else
      (findClose cs).map (fun r => (c :: r.1, r.2))

/-- One match attempt just after an opening triple-backtick marker:
the language word, the content, and the rest of the text after the
closing marker; none when the attempt fails. -/
def tryFence (cs : List Char) : Option (String × String × List Char) :=
  let fmtChars := cs.takeWhile wordChar
  let afterFmt := cs.dropWhile wordChar
  match afterFmt.dropWhile (fun c => c ≠ '\n') with
  | [] => none
  | _ :: afterNl =>
    (findClose afterNl).map (fun r => (fmtChars.asString, r.1.asString, r.2))

/-- The findall loop. The fuel starts at the character count; every step
either stops or recurses on a strictly shorter list, so the fuel never
runs out before the list does. -/
def extractBlocksAux : Nat → List Char → List (String × String)
  | 0, _ => []
  | _ + 1, [] => []
  | fuel + 1, c :: cs =>
    if ('`' :: '`' :: '`' :: []).isPrefixOf (c :: cs) then
      match tryFence ((c :: cs).drop 3) with
      | some (fmt, content, rest) => (fmt, content) :: extractBlocksAux fuel rest
      | none => extractBlocksAux fuel cs
    else
      extractBlocksAux fuel cs

/-- extract_fenced_code_blocks: the (language, content) pairs of the fenced
blocks of the text, in order. -/
def extract_fenced_code_blocks (text : String) : List (String × String) :=
  extractBlocksAux text.toList.length text.toList

/-! ### lcats/utils.py : extract_json

Python source (lines 46-63). json.loads is external (the json standard
library), so the structured parser is a parameter: a function from a
string to a parsed value or a parse error. The source first parses the
whole string; on failure it extracts the fenced blocks and raises
ValueError when there is none, when there are several and allow_multiple
is false, or when the first block is not tagged json; otherwise it parses
the first block 's content (and a failure of that parse propagates).
-/

/-- extract_json over an abstract structured parser. -/
def extract_json {α : Type} (parseJson : String → Except String α)
    (json_string : String) (allow_multiple : Bool) : Except String α :=
  match parseJson json_string with
  | .ok v => .ok v
  | .error _ =>
    match extract_fenced_code_blocks json_string with
    | [] => .error "No JSON found in the string."
    | (fmt, content) :: restBlocks =>
      if restBlocks.length + 1 > 1 ∧ allow_multiple = false then
        .error "Multiple JSON blocks found, but allow_multiple is False."
      else if fmt ≠ "json" then
        .error ("Expected JSON format, but got: " ++ fmt)
      else
        parseJson content

/-! ### The filesystem, as downloaders.py touches it

A path is its list of components (os.path.join appends a component). The
state is the list of existing directories and the list of files with
their contents. No symbolic links are modelled, so os.path.islink is
false everywhere. The operations used by the source: os.path.exists,
os.makedirs (creates the missing ancestors too), open(...).write,
os.listdir, os.path.isfile, os.path.isdir, os.unlink, shutil.rmtree.
-/

/-- What a written file holds: plain text (the license stub), or the
json.dump of the artifact dictionary with keys name, body, metadata
(metadata is kept structured; its json encoding is not re-modelled). -/
inductive FileContent where
  | text (s : String)
  | artifact (name : String) (body : String) (metadata : List (String × String))
deriving DecidableEq

/-- The filesystem state. -/
structure FS where
  dirs : List (List String)
  files : List (List String × FileContent)
deriving DecidableEq

/-- os.path.isdir. -/
def FS.isDir (fs : FS) (p : List String) : Bool :=
  fs.dirs.any (fun d => d == p)

/-- os.path.isfile. -/
def FS.isFile (fs : FS) (p : List String) : Bool :=
  fs.files.any (fun e => e.1 == p)

/-- os.path.exists. -/
def FS.pathExists (fs : FS) (p : List String) : Bool :=
  fs.isDir p || fs.isFile p

/-- The content stored at a file path, if any. -/
def FS.read? (fs : FS) (p : List String) : Option FileContent :=
  (fs.files.find? (fun e => e.1 == p)).map (fun e => e.2)

/-- os.makedirs: the path and all its ancestors become directories. -/
def FS.makedirs (fs : FS) (p : List String) : FS :=
  { fs with dirs := p.inits ++ fs.dirs }

/-- open(p, 'w') followed by a single write: create or overwrite the file. -/
def FS.write (fs : FS) (p : List String) (c : FileContent) : FS :=
  { fs with files := (p, c) :: fs.files.filter (fun e => !(e.1 == p)) }

/-- The name of an immediate child: some c when q = p followed by c. -/
def childName (p q : List String) : Option String :=
  if q.dropLast = p then q.getLast? else none

/-- os.listdir on a directory: the names of its immediate children. The
source only calls it under an existence guard; on an existing
non-directory Python would raise, a case outside every claim here. -/
def FS.listdir (fs : FS) (p : List String) : List String :=
  fs.dirs.filterMap (childName p) ++ fs.files.filterMap (fun e => childName p e.1)

/-- os.unlink: remove a file (a missing file is a no-op here; the source
wraps the call in a try/except that only prints). -/
def FS.unlink (fs : FS) (p : List String) : FS :=
  { fs with files := fs.files.filter (fun e => !(e.1 == p)) }

/-- shutil.rmtree: remove the directory and everything below it. -/
def FS.rmtree (fs : FS) (p : List String) : FS :=
  { dirs := fs.dirs.filter (fun d => !(p.isPrefixOf d)),
    files := fs.files.filter (fun e => !(p.isPrefixOf e.1)) }

/-- Well-formedness of a filesystem state, as every state reachable through
the real operating system has it: every proper non-empty ancestor of an
existing path is a directory, and no path is both a directory and a file. -/
def FS.wfb (fs : FS) : Bool :=
  (fs.dirs ++ fs.files.map (fun e => e.1)).all (fun q =>
    q.inits.all (fun pr =>
      pr == q || pr == [] || fs.dirs.any (fun d => d == pr))) &&
  fs.dirs.all (fun d => !(fs.files.any (fun e => e.1 == d)))

/-! ### lcats/gatherers/downloaders.py : DataGatherer

Python source (lines 22-110). The instance state is the constructor
fields plus the downloads dictionary (a per-run ledger name -> path),
modelled as an association list whose map semantics match the dict.
self.path is os.path.join(self.root, self.name).
-/

/-- The LICENSE constant of downloaders.py. -/
def LICENSE : String := "LICENSE"

/-- Metadata attached to an artifact (opaque to every claim here). -/
abbrev Metadata := List (String × String)

/-- A DataGatherer instance. -/
structure DataGatherer where
  name : String
  description : Option String
  root : List String
  suffix : String
  license : Option String
  downloads : List (String × List String)
deriving DecidableEq

/-- The path property: os.path.join(root, name). -/
def DataGatherer.path (g : DataGatherer) : List String :=
  g.root ++ [g.name]

/-- os.path.join(self.path, LICENSE). -/
def DataGatherer.licensePath (g : DataGatherer) : List String :=
  g.path ++ [LICENSE]

/-- os.path.join(self.path, filename + self.suffix). -/
def DataGatherer.artifactPath (g : DataGatherer) (filename : String) : List String :=
  g.path ++ [filename ++ g.suffix]

/-- The text written into a fresh license file:
self.license if self.license else "No license provided." — Python
truthiness, so None and the empty string both fall back to the default. -/
def licenseText (lic : Option String) : String :=
  match lic with
  | some s => if s.length = 0 then "No license provided." else s
  | none => "No license provided."

/-- What ensure returns, with the filesystem it leaves behind. -/
structure EnsureResult where
  fs : FS
  fileExists : Bool
  filePath : List String
deriving DecidableEq

/-- DataGatherer.ensure: create the root directory, the namespace
directory and the license file when absent, then report whether the
artifact file exists, and its path. -/
def DataGatherer.ensure (g : DataGatherer) (fs : FS) (filename : String) :
    EnsureResult :=
  let fs1 := if fs.pathExists g.root then fs else fs.makedirs g.root
  let fs2 := if fs1.pathExists g.path then fs1 else fs1.makedirs g.path
  let fs3 := if fs2.pathExists g.licensePath then fs2
    else fs2.write g.licensePath (.text (licenseText g.license))
  let fp := g.artifactPath filename
  ⟨fs3, fs3.pathExists fp, fp⟩

/-- The Python dict update self.downloads[filename] = file_path, as a map. -/
def updateLedger (l : List (String × List String)) (k : String)
    (v : List String) : List (String × List String) :=
  (k, v) :: l.filter (fun e => !(e.1 == k))

/-- The entry of the ledger at a name, if any. -/
def lookupLedger (l : List (String × List String)) (k : String) :
    Option (List String) :=
  (l.find? (fun e => e.1 == k)).map (fun e => e.2)

/-- What a download call leaves behind: the updated instance (its ledger),
the filesystem, and how many times the callback was invoked. -/
structure DownloadResult where
  gatherer : DataGatherer
  fs : FS
  callbackCalls : Nat
deriving DecidableEq

/-- DataGatherer.download: ensure, then either invoke the callback once,
write the artifact document and record it in the ledger (file absent or
force), or skip (file present and not force). -/
def DataGatherer.download (g : DataGatherer) (fs : FS) (filename : String)
    (callback : Unit → String × String × Metadata) (force : Bool) :
    DownloadResult :=
  let er := g.ensure fs filename
  if !er.fileExists || force then
    let r := callback ()
    { gatherer := { g with downloads := updateLedger g.downloads filename er.filePath },
      fs := er.fs.write er.filePath (.artifact r.1 r.2.1 r.2.2),
      callbackCalls := 1 }
  else
    { gatherer := g, fs := er.fs, callbackCalls := 0 }

/-- One iteration of the loop in DataGatherer.clear. The source tests
self.path — not the child file_path — before choosing how to delete:
  if os.path.isfile(self.path) or os.path.islink(self.path):
      os.unlink(file_path)
  elif os.path.isdir(self.path):
      shutil.rmtree(self.path)
so the first iteration on a directory removes the whole tree and the
remaining iterations do nothing. -/
def clearStep (p : List String) (acc : FS) (fname : String) : FS :=
  if acc.isFile p then acc.unlink (p ++ [fname])
  else if acc.isDir p then acc.rmtree p
  else acc

/-- DataGatherer.clear: when the namespace path exists, iterate clearStep
over a snapshot of os.listdir(self.path). -/
def DataGatherer.clear (g : DataGatherer) (fs : FS) : FS :=
  if fs.pathExists g.path then
    (fs.listdir g.path).foldl (clearStep g.path) fs
  else
    fs

/-! ### lcats/cli.py : dispatch, with lcats/gatherers/main.py

cli.py line 36 reads: return lcats.gatherers.main.main().
lcats/gatherers/main.py defines exactly one module-level function, run
(and no main), so that attribute access raises AttributeError at run
time. The module attribute table below lists the functions main.py
defines; the dispatch model consults it the way the interpreter would.
-/

/-- The run function of lcats/gatherers/main.py: outside a dry run it
gathers (the gathering itself is I/O external to the returned value) and
reports this pair. -/
def gatherers_main_run (_dry_run : Bool) : String × Nat :=
  ("Gathering complete.", 0)

/-- The module-level function names defined by lcats/gatherers/main.py. -/
def gatherersMainAttrs : List String := ["run"]

/-- What a dispatch call does: return a (message, status) pair, or raise
AttributeError for a missing module attribute. -/
inductive DispatchOutcome where
  | result (message : String) (status : Nat)
  | attributeError (missingAttr : String)
deriving DecidableEq

/-- cli.dispatch over the command string (args are deleted unused). The
gather branch looks up the attribute main on lcats.gatherers.main; were
it present its call would be returned, but the module only defines run. -/
def dispatch (command : String) : DispatchOutcome :=
  if command = "info" then
    .result "LCATS is a literary case based reasoning system." 0
  else if command = "gather" then
    if gatherersMainAttrs.contains "main" then
      .result (gatherers_main_run false).1 (gatherers_main_run false).2
    else
      .attributeError "main"
  else if command = "index" then
    .result "Indexing data files is not yet implemented." 1
  else if command = "advise" then
    .result "Getting advice from LCATS is not yet implemented." 1
  else if command = "eval" then
    .result "Evaluating LCATS is not yet implemented." 1
  else
    .result ("Unknown command: " ++ command) 1

/-! ### Concrete instances used by witnesses and counterexamples -/

/-- A gathering callback returning a fixed artifact triple. -/
def cbW : Unit → String × String × Metadata := fun _ => ("Story", "Body", [])

/-- A gatherer with the default suffix. -/
def gW : DataGatherer := ⟨"ns", none, ["data"], ".json", some "MIT", []⟩

/-- The empty filesystem. -/
def fsEmpty : FS := ⟨[], []⟩

/-- A state in which gW has already downloaded the artifact named a. -/
def fsReady : FS := (gW.download fsEmpty "a" cbW false).fs

/-- A gatherer whose suffix is the empty string, so the artifact named
LICENSE shares its path with the license stub. -/
def gLic : DataGatherer := ⟨"n", none, ["data"], "", some "LIC", []⟩

/-- A state in which gLic has its license stub written. -/
def fsLic : FS := (gLic.ensure fsEmpty "x").fs

/-- A toy structured parser accepting exactly the string 42. -/
def parseOnly42 : String → Except String Nat :=
  fun s => if s = "42" then .ok 42 else .error "bad"

/-! ## Helper lemmas about the filesystem model -/

theorem find?_filter_of_ne {α β : Type} [BEq α] [LawfulBEq α]
    (l : List (α × β)) (p q : α) (h : ¬(q = p)) :
    (l.filter (fun e => !(e.1 == p))).find? (fun e => e.1 == q) =
      l.find? (fun e => e.1 == q) := by
  induction l with
  | nil => rfl
  | cons e es ih =>
    by_cases hp : e.1 = p
    · have hq : (e.1 == q) = false := by
        rw [beq_eq_false_iff_ne]
        intro hqq
        exact h (hqq ▸ hp)
      have hkeep : (!(e.1 == p)) = false := by
        simp [hp]
      rw [List.filter_cons, hkeep, if_neg (by simp), List.find?_cons, hq, ih]
    · have hkeep : (!(e.1 == p)) = true := by
        simp [hp]
      rw [List.filter_cons, hkeep, if_pos rfl, List.find?_cons, List.find?_cons]
      cases hq : (e.1 == q) with
      | true => rfl
      | false => exact ih

theorem FS.read?_makedirs (fs : FS) (p q : List String) :
    (fs.makedirs p).read? q = fs.read? q := rfl

theorem FS.read?_write_ne (fs : FS) (p q : List String) (c : FileContent)
    (h : q ≠ p) : (fs.write p c).read? q = fs.read? q := by
  have hpq : (p == q) = false := by
    simp [beq_eq_false_iff_ne]
    exact fun hh => h hh.symm
  simp only [FS.write, FS.read?, List.find?_cons, hpq]
  rw [find?_filter_of_ne fs.files p q h]

theorem FS.pathExists_makedirs_mono (fs : FS) (p q : List String)
    (h : fs.pathExists q = true) : (fs.makedirs p).pathExists q = true := by
  simp only [FS.pathExists, FS.isDir, FS.isFile, FS.makedirs, List.any_append,
    Bool.or_eq_true] at h ⊢
  tauto

theorem FS.pathExists_write_mono (fs : FS) (p q : List String) (c : FileContent)
    (h : fs.pathExists q = true) : (fs.write p c).pathExists q = true := by
  by_cases hq : q = p
  · subst hq
    simp [FS.pathExists, FS.isFile, FS.write]
  · simp only [FS.pathExists, FS.isDir, FS.isFile, FS.write, Bool.or_eq_true,
      List.any_eq_true] at h ⊢
    rcases h with h | ⟨e, he, hq'⟩
    · exact Or.inl h
    · refine Or.inr ⟨e, List.mem_cons_of_mem _ ?_, hq'⟩
      refine List.mem_filter.mpr ⟨he, ?_⟩
      have heq : e.1 = q := by simpa using hq'
      simp only [Bool.not_eq_true', beq_eq_false_iff_ne, ne_eq, heq]
      exact fun hh => hq hh

theorem FS.pathExists_ensure_mono (g : DataGatherer) (fs : FS)
    (filename : String) (q : List String) (h : fs.pathExists q = true) :
    (g.ensure fs filename).fs.pathExists q = true := by
  simp only [DataGatherer.ensure]
  have h1 : ∀ f : FS, f.pathExists q = true →
      (if f.pathExists g.root then f else f.makedirs g.root).pathExists q = true := by
    intro f hf
    split <;> [exact hf; exact FS.pathExists_makedirs_mono f g.root q hf]
  have h2 : ∀ f : FS, f.pathExists q = true →
      (if f.pathExists g.path then f else f.makedirs g.path).pathExists q = true := by
    intro f hf
    split <;> [exact hf; exact FS.pathExists_makedirs_mono f g.path q hf]
  have h3 : ∀ f : FS, f.pathExists q = true →
      (if f.pathExists g.licensePath then f
        else f.write g.licensePath (.text (licenseText g.license))).pathExists q
        = true := by
    intro f hf
    split <;> [exact hf;
      exact FS.pathExists_write_mono f g.licensePath q _ hf]
  exact h3 _ (h2 _ (h1 _ h))

theorem ensure_fileExists_of_present (g : DataGatherer) (fs : FS)
    (filename : String)
    (h : fs.pathExists (g.artifactPath filename) = true) :
    (g.ensure fs filename).fileExists = true := by
  have := FS.pathExists_ensure_mono g fs filename (g.artifactPath filename) h
  simp only [DataGatherer.ensure] at this ⊢
  exact this

theorem ensure_read?_of_license_present (g : DataGatherer) (fs : FS)
    (filename : String) (q : List String)
    (h : fs.pathExists g.licensePath = true) :
    (g.ensure fs filename).fs.read? q = fs.read? q := by
  simp only [DataGatherer.ensure]
  have h1 : (if fs.pathExists g.root then fs else fs.makedirs g.root).pathExists
      g.licensePath = true := by
    split <;> [exact h; exact FS.pathExists_makedirs_mono fs g.root _ h]
  set fs1 := if fs.pathExists g.root then fs else fs.makedirs g.root with hfs1
  have h2 : (if fs1.pathExists g.path then fs1 else fs1.makedirs g.path).pathExists
      g.licensePath = true := by
    split <;> [exact h1; exact FS.pathExists_makedirs_mono fs1 g.path _ h1]
  set fs2 := if fs1.pathExists g.path then fs1 else fs1.makedirs g.path with hfs2
  have hr1 : fs1.read? q = fs.read? q := by
    rw [hfs1]; split <;> [rfl; exact FS.read?_makedirs fs g.root q]
  have hr2 : fs2.read? q = fs1.read? q := by
    rw [hfs2]; split <;> [rfl; exact FS.read?_makedirs fs1 g.path q]
  simp only [h2, if_true]
  rw [hr2, hr1]

theorem download_eq_write (g : DataGatherer) (fs : FS) (filename : String)
    (callback : Unit → String × String × Metadata) (force : Bool)
    (hb : (!(g.ensure fs filename).fileExists || force) = true) :
    g.download fs filename callback force =
      ⟨{ g with downloads := updateLedger g.downloads filename (g.ensure fs filename).filePath },
        (g.ensure fs filename).fs.write (g.ensure fs filename).filePath
          (FileContent.artifact (callback ()).1 (callback ()).2.1
            (callback ()).2.2),
        1⟩ := by
  simp [DataGatherer.download, hb]

theorem download_eq_skip (g : DataGatherer) (fs : FS) (filename : String)
    (callback : Unit → String × String × Metadata) (force : Bool)
    (hb : (!(g.ensure fs filename).fileExists || force) = false) :
    g.download fs filename callback force = ⟨g, (g.ensure fs filename).fs, 0⟩ := by
  simp [DataGatherer.download, hb]

theorem FS.pathExists_write_self (f : FS) (p : List String) (c : FileContent) :
    (f.write p c).pathExists p = true := by
  simp [FS.pathExists, FS.isFile, FS.write]

theorem license_branch_pathExists (f : FS) (lp : List String) (c : FileContent) :
    (if f.pathExists lp then f else f.write lp c).pathExists lp = true := by
  split
  · assumption
  · exact FS.pathExists_write_self f lp c

theorem ensure_read?_ne_license (g : DataGatherer) (fs : FS)
    (filename : String) (q : List String) (h : q ≠ g.licensePath) :
    (g.ensure fs filename).fs.read? q = fs.read? q := by
  simp only [DataGatherer.ensure]
  set fs1 := if fs.pathExists g.root then fs else fs.makedirs g.root with hfs1
  set fs2 := if fs1.pathExists g.path then fs1 else fs1.makedirs g.path with hfs2
  have hr1 : fs1.read? q = fs.read? q := by
    rw [hfs1]; split <;> [rfl; exact FS.read?_makedirs fs g.root q]
  have hr2 : fs2.read? q = fs1.read? q := by
    rw [hfs2]; split <;> [rfl; exact FS.read?_makedirs fs1 g.path q]
  split
  · rw [hr2, hr1]
  · rw [FS.read?_write_ne fs2 g.licensePath q _ h, hr2, hr1]

/-! ## Helper lemmas for clear -/

theorem mem_listdir_of_child (fs : FS) (p : List String) (c : String)
    (h : fs.isDir (p ++ [c]) = true ∨ fs.isFile (p ++ [c]) = true) :
    c ∈ fs.listdir p := by
  have hchild : childName p (p ++ [c]) = some c := by
    simp [childName]
  rw [FS.listdir, List.mem_append]
  rcases h with h | h
  · left
    rw [List.mem_filterMap]
    simp only [FS.isDir, List.any_eq_true, beq_iff_eq] at h
    obtain ⟨d, hd, hdq⟩ := h
    refine ⟨d, hd, ?_⟩
    rw [hdq]
    exact hchild
  · right
    rw [List.mem_filterMap]
    simp only [FS.isFile, List.any_eq_true, beq_iff_eq] at h
    obtain ⟨e, he, hq⟩ := h
    refine ⟨e, he, ?_⟩
    rw [hq]
    exact hchild

theorem listdir_ne_nil_of_strict_under (fs : FS) (p q : List String)
    (hwf : fs.wfb = true) (hpre : p.isPrefixOf q = true) (hne : q ≠ p)
    (h : fs.isDir q = true ∨ fs.isFile q = true) :
    fs.listdir p ≠ [] := by
  obtain ⟨r, hr⟩ := List.isPrefixOf_iff_prefix.mp hpre
  cases r with
  | nil => exact absurd (by simpa using hr.symm) hne
  | cons c r' =>
    cases r' with
    | nil =>
      have : c ∈ fs.listdir p := mem_listdir_of_child fs p c (by rw [hr]; exact h)
      exact List.ne_nil_of_mem this
    | cons c2 r2 =>
      have hq0 : fs.isDir (p ++ [c]) = true := by
        have hmem : q ∈ fs.dirs ++ fs.files.map (fun e => e.1) := by
          rw [List.mem_append]
          rcases h with h | h
          · left
            simp only [FS.isDir, List.any_eq_true, beq_iff_eq] at h
            obtain ⟨d, hd, hdq⟩ := h
            exact hdq ▸ hd
          · right
            simp only [FS.isFile, List.any_eq_true, beq_iff_eq] at h
            obtain ⟨e, he, hq⟩ := h
            exact List.mem_map.mpr ⟨e, he, hq.symm ▸ rfl⟩
        have hwf1 := (Bool.and_eq_true _ _ |>.mp hwf).1
        rw [List.all_eq_true] at hwf1
        have hq := hwf1 q hmem
        rw [List.all_eq_true] at hq
        have hin : (p ++ [c]) ∈ q.inits := by
          rw [List.mem_inits]
          exact ⟨c2 :: r2, by rw [← hr]; simp⟩
        have := hq _ hin
        simp only [Bool.or_eq_true, beq_iff_eq] at this
        rcases this with (heq | hnil) | hdirs
        · exfalso
          rw [← hr] at heq
          simp at heq
        · exact absurd hnil (by simp)
        · rw [List.any_eq_true] at hdirs
          obtain ⟨d, hd, hdq⟩ := hdirs
          simp only [FS.isDir, List.any_eq_true]
          exact ⟨d, hd, hdq⟩
      have : c ∈ fs.listdir p := mem_listdir_of_child fs p c (Or.inl hq0)
      exact List.ne_nil_of_mem this

theorem isFile_eq_false_of_isDir (fs : FS) (p : List String)
    (hwf : fs.wfb = true) (hdir : fs.isDir p = true) : fs.isFile p = false := by
  have hwf2 := (Bool.and_eq_true _ _ |>.mp hwf).2
  rw [List.all_eq_true] at hwf2
  simp only [FS.isDir, List.any_eq_true, beq_iff_eq] at hdir
  obtain ⟨d, hd, hdq⟩ := hdir
  have hthis := hwf2 d hd
  rw [Bool.not_eq_true'] at hthis
  rw [← hdq]
  exact hthis

theorem rmtree_isFile_false (fs : FS) (p q : List String)
    (hpre : p.isPrefixOf q = true) : (fs.rmtree p).isFile q = false := by
  simp only [FS.rmtree, FS.isFile]
  rw [Bool.eq_false_iff]
  intro h
  rw [List.any_eq_true] at h
  obtain ⟨e, he, hq⟩ := h
  rw [List.mem_filter] at he
  have heq : e.1 = q := by simpa using hq
  have := he.2
  rw [heq, hpre] at this
  simp at this

theorem rmtree_isDir_self_false (fs : FS) (p : List String) :
    (fs.rmtree p).isDir p = false := by
  simp only [FS.rmtree, FS.isDir]
  rw [Bool.eq_false_iff]
  intro h
  rw [List.any_eq_true] at h
  obtain ⟨d, hd, hq⟩ := h
  rw [List.mem_filter] at hd
  have heq : d = p := by simpa using hq
  have := hd.2
  rw [heq] at this
  rw [show p.isPrefixOf p = true by simp [List.isPrefixOf_iff_prefix]] at this
  simp at this

theorem rmtree_isFile_self_false (fs : FS) (p : List String) :
    (fs.rmtree p).isFile p = false :=
  rmtree_isFile_false fs p p (by simp [List.isPrefixOf_iff_prefix])

theorem foldl_clearStep_dead (p : List String) (ns : List String) (acc : FS)
    (hd : acc.isDir p = false) (hf : acc.isFile p = false) :
    ns.foldl (clearStep p) acc = acc := by
  induction ns with
  | nil => rfl
  | cons n ns ih =>
    have hstep : clearStep p acc n = acc := by
      rw [clearStep, if_neg (by simp [hf]), if_neg (by simp [hd])]
    rw [List.foldl_cons, hstep, ih]

/-! ## The claims -/

/-- C1 counterexample: at status 404 load_page returns the None sentinel, a
normal (non-raised) return, so it does not signal a FetchError-class
failure for a non-200 status. -/
theorem load_page_non200_cex :
    load_page (Except.ok ⟨404, "Not Found"⟩) = LoadPageResult.returnedNone ∧
    (load_page (Except.ok ⟨404, "Not Found"⟩)).isRaised = false := by
  constructor <;> rfl

/-- C1 (amended): for every response, a 200 status returns the response
body as text, and every non-200 status returns None — a normal return,
with no exception raised. -/
theorem load_page_status_behavior (r : Response) :
    (r.status_code = 200 →
      load_page (Except.ok r) = LoadPageResult.returned r.text) ∧
    (r.status_code ≠ 200 →
      load_page (Except.ok r) = LoadPageResult.returnedNone ∧
      (load_page (Except.ok r)).isRaised = false) := by
  constructor
  · intro h
    simp [load_page, h]
  · intro h
    simp [load_page, h, LoadPageResult.isRaised]

/-- Witness for load_page_status_behavior at statuses 200 and 404. -/
theorem load_page_status_behavior_witness :
    load_page (Except.ok ⟨200, "body"⟩) = LoadPageResult.returned "body" ∧
    load_page (Except.ok ⟨404, "nf"⟩) = LoadPageResult.returnedNone :=
  ⟨(load_page_status_behavior ⟨200, "body"⟩).1 rfl,
   ((load_page_status_behavior ⟨404, "nf"⟩).2 (by decide)).1⟩

/-- C4: when requests.get raises a transport error (a timeout), load_page
does not catch it: the exception propagates as the distinct raised
outcome, which is neither a returned string (in particular not the empty
string) nor the None sentinel. -/
theorem load_page_timeout_propagates (e : TransportError) (s : String) :
    load_page (Except.error e) = LoadPageResult.raised e ∧
    load_page (Except.error e) ≠ LoadPageResult.returned s ∧
    load_page (Except.error e) ≠ LoadPageResult.returnedNone := by
  refine ⟨rfl, ?_, ?_⟩ <;> simp [load_page]

/-- C7: dispatching the gather subcommand does not return what the
gathering run reports: lcats/gatherers/main.py defines run (which
reports the pair ("Gathering complete.", 0)) but no main, and cli.py
calls lcats.gatherers.main.main(), so dispatch raises AttributeError
instead of returning that pair. -/
theorem dispatch_gather_attribute_error :
    dispatch "gather" = DispatchOutcome.attributeError "main" ∧
    gatherers_main_run false = ("Gathering complete.", 0) ∧
    DispatchOutcome.attributeError "main" ≠
      DispatchOutcome.result "Gathering complete." 0 := by
  refine ⟨rfl, rfl, ?_⟩
  simp

/-- The ledger lookup right after an update finds the new entry. -/
theorem lookupLedger_update (l : List (String × List String)) (k : String)
    (v : List String) : lookupLedger (updateLedger l k v) k = some v := by
  simp [lookupLedger, updateLedger, List.find?_cons]

/-- The artifact path coincides with the license path exactly when the
file name plus suffix is the LICENSE constant. -/
theorem artifactPath_eq_licensePath_iff (g : DataGatherer) (filename : String) :
    g.artifactPath filename = g.licensePath ↔ filename ++ g.suffix = LICENSE := by
  simp [DataGatherer.artifactPath, DataGatherer.licensePath]

/-- C2: when the artifact file is already present and force is false,
download never invokes its callback: the call count is 0. -/
theorem download_present_skips_callback (g : DataGatherer) (fs : FS)
    (filename : String) (callback : Unit → String × String × Metadata)
    (h : fs.pathExists (g.artifactPath filename) = true) :
    (g.download fs filename callback false).callbackCalls = 0 := by
  have he := ensure_fileExists_of_present g fs filename h
  simp [DataGatherer.download, he]

/-- Witness for download_present_skips_callback: a state holding the
artifact named a. -/
theorem download_present_skips_callback_witness :
    fsReady.pathExists (gW.artifactPath "a") = true ∧
    (gW.download fsReady "a" cbW false).callbackCalls = 0 :=
  ⟨by decide, download_present_skips_callback gW fsReady "a" cbW (by decide)⟩

/-- C10: on the skip branch (artifact present, force false) download leaves
the downloads ledger and the stored artifact content unchanged; on the
branch that writes (absent or forced) the ledger maps the name to the
artifact path. -/
theorem download_skip_frame (g : DataGatherer) (fs : FS) (filename : String)
    (callback : Unit → String × String × Metadata) (force : Bool) :
    (fs.pathExists (g.artifactPath filename) = true → force = false →
      (g.download fs filename callback force).gatherer.downloads = g.downloads ∧
      (g.download fs filename callback force).fs.read? (g.artifactPath filename)
        = fs.read? (g.artifactPath filename)) ∧
    ((g.ensure fs filename).fileExists = false ∨ force = true →
      lookupLedger (g.download fs filename callback force).gatherer.downloads
        filename = some (g.artifactPath filename)) := by
  constructor
  · intro h hf
    subst hf
    have he := ensure_fileExists_of_present g fs filename h
    constructor
    · simp [DataGatherer.download, he]
    · simp only [DataGatherer.download, he, Bool.not_true, Bool.or_false,
        if_neg (by simp : ¬((false : Bool) = true))]
      by_cases hlp : g.artifactPath filename = g.licensePath
      · have hlic : fs.pathExists g.licensePath = true := hlp ▸ h
        rw [ensure_read?_of_license_present g fs filename _ hlic]
      · rw [ensure_read?_ne_license g fs filename _ hlp]
  · intro hor
    have hcond : (!(g.ensure fs filename).fileExists || force) = true := by
      rcases hor with h | h <;> simp [h]
    simp only [DataGatherer.download, hcond, if_pos rfl]
    exact lookupLedger_update g.downloads filename _

/-- Witness for download_skip_frame: the skip branch on a ready state, and
the writing branch on the empty state. -/
theorem download_skip_frame_witness :
    ((gW.download fsReady "a" cbW false).gatherer.downloads = gW.downloads ∧
     (gW.download fsReady "a" cbW false).fs.read? (gW.artifactPath "a") =
       fsReady.read? (gW.artifactPath "a")) ∧
    lookupLedger (gW.download fsEmpty "b" cbW false).gatherer.downloads "b" =
      some (gW.artifactPath "b") :=
  ⟨(download_skip_frame gW fsReady "a" cbW false).1 (by decide) rfl,
   (download_skip_frame gW fsEmpty "b" cbW false).2 (Or.inl (by decide))⟩

/-- C6 counterexample: a gatherer with an empty suffix and artifact name
LICENSE: its license stub is present with its original text, yet a forced
download overwrites that file with the artifact document, so the license
content is not preserved by every subsequent download call. -/
theorem license_overwritten_cex :
    fsLic.pathExists gLic.licensePath = true ∧
    fsLic.read? gLic.licensePath = some (FileContent.text "LIC") ∧
    (gLic.download fsLic "LICENSE" cbW true).fs.read? gLic.licensePath =
      some (FileContent.artifact "Story" "Body" []) ∧
    FileContent.artifact "Story" "Body" [] ≠ FileContent.text "LIC" := by
  refine ⟨by decide, by decide, by decide, by decide⟩

/-- C6 (amended): ensure leaves the namespace license file existing; it
writes it only when absent, so an ensure call never changes the content
of a present license file; and a download call also preserves a present
license file unless the artifact name plus suffix equals LICENSE and
force is set (then the artifact write lands on the license path). -/
theorem ensure_license_once (g : DataGatherer) (fs : FS) (filename : String)
    (callback : Unit → String × String × Metadata) (force : Bool) :
    ((g.ensure fs filename).fs.pathExists g.licensePath = true) ∧
    (fs.pathExists g.licensePath = true →
      (g.ensure fs filename).fs.read? g.licensePath = fs.read? g.licensePath) ∧
    (fs.pathExists g.licensePath = true →
      (filename ++ g.suffix ≠ LICENSE ∨ force = false) →
      (g.download fs filename callback force).fs.read? g.licensePath =
        fs.read? g.licensePath) := by
  refine ⟨?_, ?_, ?_⟩
  · simp only [DataGatherer.ensure]
    exact license_branch_pathExists _ _ _
  · intro h
    exact ensure_read?_of_license_present g fs filename _ h
  · intro h hcase
    by_cases hb : (!(g.ensure fs filename).fileExists || force) = true
    · have hne : g.artifactPath filename ≠ g.licensePath := by
        rcases hcase with hne' | hf
        · exact fun hc => hne' ((artifactPath_eq_licensePath_iff g filename).mp hc)
        · subst hf
          simp only [Bool.or_false, Bool.not_eq_true'] at hb
          intro hc
          have hap : fs.pathExists (g.artifactPath filename) = true := by
            rw [hc]; exact h
          have he := ensure_fileExists_of_present g fs filename hap
          rw [he] at hb
          simp at hb
      rw [download_eq_write g fs filename callback force hb]
      dsimp only
      have hw := FS.read?_write_ne (g.ensure fs filename).fs
        (g.ensure fs filename).filePath g.licensePath
        (FileContent.artifact (callback ()).1 (callback ()).2.1 (callback ()).2.2)
        (fun hc => hne (hc.symm))
      rw [hw]
      exact ensure_read?_of_license_present g fs filename _ h
    · have hb' : (!(g.ensure fs filename).fileExists || force) = false := by
        simpa using hb
      rw [download_eq_skip g fs filename callback force hb']
      exact ensure_read?_of_license_present g fs filename _ h

/-- Witness for ensure_license_once: the license stub of gW survives an
ensure call and an unforced download. -/
theorem ensure_license_once_witness :
    ((gW.ensure fsReady "c").fs.pathExists gW.licensePath = true) ∧
    ((gW.ensure fsReady "c").fs.read? gW.licensePath =
      fsReady.read? gW.licensePath) ∧
    ((gW.download fsReady "c" cbW false).fs.read? gW.licensePath =
      fsReady.read? gW.licensePath) :=
  ⟨(ensure_license_once gW fsReady "c" cbW false).1,
   (ensure_license_once gW fsReady "c" cbW false).2.1 (by decide),
   (ensure_license_once gW fsReady "c" cbW false).2.2 (by decide)
     (Or.inr rfl)⟩

/-- C5: on a well-formed filesystem in which the namespace directory
exists, clear removes every file stored under the namespace: afterwards no
file strictly below the namespace path remains. When the directory has
any entry, the first loop iteration hits the rmtree branch and removes
the whole tree; when it is empty, no file was stored under it at all. -/
theorem clear_removes_namespace_files (g : DataGatherer) (fs : FS)
    (hwf : fs.wfb = true) (hdir : fs.isDir g.path = true)
    (q : List String) (hpre : g.path.isPrefixOf q = true) (hne : q ≠ g.path)
    (hfile : fs.isFile q = true) :
    (g.clear fs).isFile q = false := by
  have hex : fs.pathExists g.path = true := by
    simp [FS.pathExists, hdir]
  have hnil := listdir_ne_nil_of_strict_under fs g.path q hwf hpre hne
    (Or.inr hfile)
  obtain ⟨n, ns, hns⟩ := List.exists_cons_of_ne_nil hnil
  unfold DataGatherer.clear
  rw [if_pos hex, hns, List.foldl_cons]
  have hnf : fs.isFile g.path = false := isFile_eq_false_of_isDir fs g.path hwf hdir
  have hstep : clearStep g.path fs n = fs.rmtree g.path := by
    unfold clearStep
    rw [if_neg (by simp [hnf]), if_pos hdir]
  rw [hstep]
  rw [foldl_clearStep_dead g.path ns _ (rmtree_isDir_self_false fs g.path)
    (rmtree_isFile_self_false fs g.path)]
  exact rmtree_isFile_false fs g.path q hpre

/-- Witness for clear_removes_namespace_files: clearing gW's ready state
removes its stored artifact file. -/
theorem clear_removes_namespace_files_witness :
    fsReady.wfb = true ∧ fsReady.isFile (gW.artifactPath "a") = true ∧
    (gW.clear fsReady).isFile (gW.artifactPath "a") = false :=
  ⟨by decide, by decide,
   clear_removes_namespace_files gW fsReady (by decide) (by decide)
     (gW.artifactPath "a") (by decide) (by decide) (by decide)⟩

/-- Length of the three concatenated pieces sm returns on its long branch. -/
theorem sm_pieces_length (text spacer : String) (p s : Nat) :
    (strTake text p ++ spacer ++ strTakeRight text s).length =
      min p text.length + spacer.length + (text.length - (text.length - s)) := by
  rw [String.length_append, String.length_append]
  have h1 : (strTake text p).length = min p text.length := by
    show (text.toList.take p).length = _
    rw [List.length_take]
    rfl
  have h2 : (strTakeRight text s).length = text.length - (text.length - s) := by
    show (text.toList.drop (text.toList.length - s)).length = _
    rw [List.length_drop]
    rfl
  rw [h1, h2]

/-- C9: sm raises ValueError exactly when the text is longer than the limit
and the floor-divided prefix budget (limit minus spacer length, halved) is
not positive; whenever it returns on a text longer than the limit the
result's length is exactly the limit; and a text within the limit is
returned unchanged. -/
theorem sm_contract (text : String) (limit : Int) (spacer : String) :
    (isErr (sm text limit spacer) = true ↔
      ((text.length : Int) > limit ∧
        Int.fdiv (limit - (spacer.length : Int)) 2 ≤ 0)) ∧
    (∀ r, sm text limit spacer = Except.ok r → (text.length : Int) > limit →
      (r.length : Int) = limit) ∧
    ((text.length : Int) ≤ limit → sm text limit spacer = Except.ok text) := by
  have hfd : Int.fdiv (limit - (spacer.length : Int)) 2 =
      (limit - (spacer.length : Int)) / 2 :=
    Int.fdiv_eq_ediv _ (by norm_num)
  refine ⟨?_, ?_, ?_⟩
  · by_cases hle : (text.length : Int) ≤ limit
    · simp only [sm, if_pos hle]
      constructor
      · intro h; exact absurd h (by simp [isErr])
      · rintro ⟨h1, _⟩; exact absurd hle (not_le.mpr h1)
    · simp only [sm, if_neg hle, hfd]
      by_cases hpre : (limit - (spacer.length : Int)) / 2 ≤ 0
      · simp only [if_pos hpre, isErr]
        exact ⟨fun _ => ⟨not_le.mp hle, hfd ▸ hpre⟩, fun _ => by trivial⟩
      · simp only [if_neg hpre, isErr]
        constructor
        · intro h; exact absurd h (by simp)
        · rintro ⟨_, h2⟩
          exact absurd h2 hpre
  · intro r hr hgt
    simp only [sm, if_neg (not_le.mpr hgt), hfd] at hr
    by_cases hpre : (limit - (spacer.length : Int)) / 2 ≤ 0
    · rw [if_pos hpre] at hr
      exact absurd hr (by simp)
    · rw [if_neg hpre] at hr
      have hx := Except.ok.inj hr
      rw [← hx, sm_pieces_length]
      omega
  · intro h
    simp only [sm, if_pos h]

/-- Witness for sm_contract: a long text shortened to exactly the limit, a
short text returned unchanged, and a limit too small for the spacer. -/
theorem sm_contract_witness :
    sm "abcdefghij" 5 "..." = Except.ok "a...j" ∧
    (("a...j" : String).length : Int) = 5 ∧
    sm "ab" 5 "..." = Except.ok "ab" ∧
    isErr (sm "x" 0 "") = true := by
  refine ⟨by rfl, ?_, (sm_contract "ab" 5 "...").2.2 (by decide), ?_⟩
  · exact (sm_contract "abcdefghij" 5 "...").2.1 "a...j" (by rfl) (by decide)
  · exact ((sm_contract "x" 0 "").1).mpr ⟨by decide, by decide⟩

/-- C3: when the direct structured parse fails, extract_json retries the
structured parse on the first fenced block when that block is tagged json
and is unambiguous (it is the only block, or multiplicity is allowed),
returning exactly that retried parse; and it returns a parsed value only
when such a recoverable first json-tagged block exists and its content
parses — in every other case it signals a failure. -/
theorem extract_json_fallback {α : Type} (parseJson : String → Except String α)
    (json_string : String) (allow_multiple : Bool) (e : String)
    (hp : parseJson json_string = Except.error e) :
    (∀ fmt content restBlocks,
      extract_fenced_code_blocks json_string = (fmt, content) :: restBlocks →
      (restBlocks = [] ∨ allow_multiple = true) → fmt = "json" →
      extract_json parseJson json_string allow_multiple = parseJson content) ∧
    (∀ v, extract_json parseJson json_string allow_multiple = Except.ok v →
      ∃ content restBlocks,
        extract_fenced_code_blocks json_string = ("json", content) :: restBlocks ∧
        (restBlocks = [] ∨ allow_multiple = true) ∧
        parseJson content = Except.ok v) := by
  constructor
  · intro fmt content restBlocks hbl hsingle hfmt
    have hcond : ¬(restBlocks.length + 1 > 1 ∧ allow_multiple = false) := by
      rcases hsingle with h | h
      · subst h; simp
      · simp [h]
    simp only [extract_json, hp, hbl, if_neg hcond, hfmt, ite_not, if_pos rfl,
      eq_self_iff_true, if_true]
  · intro v hv
    simp only [extract_json, hp] at hv
    cases hbl : extract_fenced_code_blocks json_string with
    | nil =>
      rw [hbl] at hv
      exact absurd hv (by simp)
    | cons head restBlocks =>
      obtain ⟨fmt, content⟩ := head
      rw [hbl] at hv
      dsimp only at hv
      by_cases hcond : (restBlocks.length + 1 > 1 ∧ allow_multiple = false)
      · rw [if_pos hcond] at hv
        exact absurd hv (by simp)
      · rw [if_neg hcond] at hv
        by_cases hfmt : fmt = "json"
        · refine ⟨content, restBlocks, ?_, ?_, ?_⟩
          · rw [hfmt]
          · by_cases hlen : restBlocks = []
            · exact Or.inl hlen
            · refine Or.inr ?_
              rcases Bool.eq_false_or_eq_true allow_multiple with h | h
              · exact h
              · exfalso
                refine hcond ⟨?_, h⟩
                have := List.length_pos.mpr hlen
                omega
          · rw [if_neg (by simp [hfmt])] at hv
            exact hv
        · rw [if_pos (by simp [hfmt])] at hv
          exact absurd hv (by simp)

/-- Witness for extract_json_fallback: a toy parser, a string whose direct
parse fails and whose single fenced block is tagged json. -/
theorem extract_json_fallback_witness :
    parseOnly42 "x ```json\n42``` y" = Except.error "bad" ∧
    extract_json parseOnly42 "x ```json\n42``` y" false = parseOnly42 "42" ∧
    extract_json parseOnly42 "x ```json\n42``` y" false = Except.ok 42 := by
  have h1 : parseOnly42 "x ```json\n42``` y" = Except.error "bad" := by rfl
  have h2 := (extract_json_fallback parseOnly42 "x ```json\n42``` y" false
    "bad" h1).1 "json" "42" [] (by decide) (Or.inl rfl) rfl
  exact ⟨h1, h2, h2.trans (by rfl)⟩

/-- C8: sm on the 71-character display sentence with limit 20 and the
default spacer returns exactly "This is ... display.", of length
exactly 20. -/
theorem sm_display_scenario :
    sm "This is a very long text that exceeds the specified limit for display."
        20 "..." = Except.ok "This is ... display." ∧
    ("This is ... display." : String).length = 20 := by
  constructor <;> rfl

end LCATS
